import Mathlib

set_option linter.unusedVariables false

/-!
Verification development for the `pylogcfg` repository
(`src/pylogcfg/pylogcfg.py` and `src/pylogcfg/cfg_pylogcfg.py`).

The Python code is shallowly embedded: Python values that can appear in the
JSON configuration dictionary and in log-record attributes are modelled by
`PyValue`; the formatter `JSONLogFormatter` becomes a Lean structure built by
`mkJSONLogFormatter`; the module-level facade state (`_listener`, `_logger`,
`_log_queue`) becomes `FacadeState`, transformed by `initLogging`
(embedding `initialize_logging`), `stopListener` (embedding `_stop_listener`)
and `getLoggerInit` (embedding the try/except of `get_logger`).
Fallible Python operations are embedded as `Except`-valued functions.
-/

/-- A Python value as it can occur in the configuration dictionary, in
log-record attributes, and in the `data` dictionary built by
`JSONLogFormatter.format`.  `nonSerializable` stands for an arbitrary Python
object that the plain JSON encoder rejects; its field is the text `str()`
would produce for it. -/
inductive PyValue where
  | none
  | bool (b : Bool)
  | int (n : Int)
  | str (s : String)
  | list (elems : List PyValue)
  | dict (entries : List (String × PyValue))
  | nonSerializable (text : String)

/-- Python truthiness (`bool(v)`) for the modelled values.  An arbitrary
object without `__bool__`/`__len__` is truthy. -/
def pyTruthy : PyValue → Bool
  | PyValue.none => false
  | PyValue.bool b => b
  | PyValue.int n => n != 0
  | PyValue.str s => !(s = "")
  | PyValue.list es => !es.isEmpty
  | PyValue.dict es => !es.isEmpty
  | PyValue.nonSerializable _ => true

/-- `str(v)` for the modelled values.  The renderings of `list`/`dict`
values are abbreviated; no claim depends on them. -/
def pyStr : PyValue → String
  | PyValue.none => "None"
  | PyValue.bool b => cond b "True" "False"
  | PyValue.int n => toString n
  | PyValue.str s => s
  | PyValue.list _ => "<list>"
  | PyValue.dict _ => "<dict>"
  | PyValue.nonSerializable t => t

/-- The Python exceptions arising in the embedded code paths.
`runtimeError` carries its `__cause__` (`raise ... from exc`). -/
inductive PyExn where
  | typeError (msg : String)
  | valueError (msg : String)
  | runtimeError (msg : String) (cause : PyExn)
  deriving DecidableEq, Repr

/-- The decimal value of a nonempty all-digit character list, `None`
otherwise. -/
def digitsVal (l : List Char) : Option Nat :=
  if l ≠ [] ∧ l.all (fun c => c.isDigit) then
    Option.some (l.foldl (fun n c => n * 10 + (c.toNat - 48)) 0)
  else Option.none

/-- Decimal integer parsing of a string, optional leading minus sign
(the plain forms Python's `int()` accepts; its additional tolerance for
whitespace, `+` and underscores is irrelevant to the claims). -/
def intOfString (s : String) : Option Int :=
  match s.data with
  | '-' :: rest => (digitsVal rest).map (fun n => -(n : Int))
  | l => (digitsVal l).map (fun n => (n : Int))

/-- `int(v)`: embeds Python's `int()` conversion on the modelled values.
Strings are parsed as optionally signed decimal integers; `None`, lists,
dicts and arbitrary objects raise `TypeError`. -/
def pyInt : PyValue → Except PyExn Int
  | PyValue.int n => Except.ok n
  | PyValue.bool b => Except.ok (cond b 1 0)
  | PyValue.str s =>
      match intOfString s with
      | Option.some n => Except.ok n
      | Option.none => Except.error (PyExn.valueError s)
  | v => Except.error (PyExn.typeError (pyStr v))

/-- Two lowercase hex digits of `n % 256`, used for JSON control-character
escapes. -/
def hex2 (n : Nat) : String :=
  let dig := fun (k : Nat) =>
    if k < 10 then Char.ofNat (48 + k) else Char.ofNat (87 + k)
  String.mk [dig ((n / 16) % 16), dig (n % 16)]

/-- JSON escaping of one character, `ensure_ascii=False` style: non-ASCII
characters pass through verbatim. -/
def jsonEscapeChar (c : Char) : String :=
  if c = '"' then "\\\""
  else if c = '\\' then "\\\\"
  else if c = '\n' then "\\n"
  else if c = '\r' then "\\r"
  else if c = '\t' then "\\t"
  else if c.toNat < 32 then "\\u00" ++ hex2 c.toNat
  else String.singleton c

/-- A JSON string literal for `s` (`json.dumps` with `ensure_ascii=False`). -/
def jsonQuote (s : String) : String :=
  "\"" ++ String.join (s.data.map jsonEscapeChar) ++ "\""

/-- Python `str.strip()`: drop whitespace from both ends (structural,
over the character list). -/
def pyStrip (s : String) : String :=
  String.mk
    (((s.data.dropWhile Char.isWhitespace).reverse.dropWhile
        Char.isWhitespace).reverse)

mutual
/-- `json.dumps(v, default=str, ensure_ascii=False)` on one value: the
`default=str` callback coerces otherwise non-serializable objects to their
`str()` text, so serialization is total. -/
def dumpsD : PyValue → String
  | PyValue.none => "null"
  | PyValue.bool b => cond b "true" "false"
  | PyValue.int n => toString n
  | PyValue.str s => jsonQuote s
  | PyValue.list es => "[" ++ dumpsListD es ++ "]"
  | PyValue.dict es => "\x7b" ++ dumpsEntriesD es ++ "\x7d"
  | PyValue.nonSerializable t => jsonQuote t

/-- Serialize the comma-separated items of a JSON array. -/
def dumpsListD : List PyValue → String
  | [] => ""
  | [v] => dumpsD v
  | v :: rest => dumpsD v ++ ", " ++ dumpsListD rest

/-- Serialize the comma-separated members of a JSON object. -/
def dumpsEntriesD : List (String × PyValue) → String
  | [] => ""
  | [(k, v)] => jsonQuote k ++ ": " ++ dumpsD v
  | (k, v) :: rest => jsonQuote k ++ ": " ++ dumpsD v ++ ", " ++ dumpsEntriesD rest
end

/-- A Python dictionary is modelled as an association list in insertion
order with unique keys (the invariant Python dictionaries maintain). -/
def Cfg : Type := List (String × PyValue)

/-- First-match lookup on a modelled dictionary (Python dictionaries have
unique keys, so first-match and only-match coincide). -/
def pyGet (a : String) : List (String × PyValue) → Option PyValue
  | [] => Option.none
  | (k, v) :: rest => if k = a then Option.some v else pyGet a rest

/-- `cfg.get(k)`: `None` when the key is absent. -/
def cfgGet (c : Cfg) (k : String) : PyValue :=
  (pyGet k c).getD PyValue.none

/-- `cfg.get(k, dflt)`. -/
def cfgGetD (c : Cfg) (k : String) (dflt : PyValue) : PyValue :=
  (pyGet k c).getD dflt

/-- `d[k] = v` on an insertion-ordered Python dictionary: an existing key
keeps its position and gets the new value, a new key is appended. -/
def dictSet (d : List (String × PyValue)) (k : String) (v : PyValue) :
    List (String × PyValue) :=
  if d.any (fun kv => kv.1 = k) then
    d.map (fun kv => (kv.1, if kv.1 = k then v else kv.2))
  else
    d ++ [(k, v)]

/-- The key list of a modelled dictionary, in insertion order. -/
def keysOf (d : List (String × PyValue)) : List String :=
  d.map (fun kv => kv.1)

/-- `LOG_RECORD_KEYS` from `cfg_pylogcfg.py` (lines 20-41), verbatim —
note that `args`, `exc_info`, `exc_text` are absent and that the last
entry is the lowercase `taskname` while the actual record attribute is
`taskName`. -/
def LOG_RECORD_KEYS : List String :=
  ["asctime", "created", "filename", "funcName", "levelname", "levelno",
   "lineno", "message", "module", "msecs", "msg", "name", "pathname",
   "process", "processName", "relativeCreated", "stack_info", "thread",
   "threadName", "taskname"]

/-- A timezone object: a named IANA zone (`zoneinfo.ZoneInfo`), a fixed
UTC offset in seconds (the kind `datetime.now().astimezone().tzinfo`
yields), or `datetime.timezone.utc`. -/
inductive Tz where
  | zone (name : String)
  | offset (secs : Int)
  | utc
  deriving DecidableEq, Repr

/-- The host environment the formatter constructor consults: which IANA
timezone identifiers the host's zone database resolves, and the host's
local timezone (`datetime.now().astimezone().tzinfo`, `Option.none` when
that is falsy). -/
structure TzEnv where
  isValid : String → Bool
  localTz : Option Tz

/-- A timezone-aware datetime, as produced by
`datetime.fromtimestamp(created, tz=...)`.  Only the instant and the
timezone matter to the embedded code. -/
structure PyDateTime where
  epoch : Int
  tz : Tz
  deriving DecidableEq, Repr

/-- Tag rendering a `Tz` inside the abstract `strftime` output. -/
def tzTag : Tz → String
  | Tz.zone n => "zone:" ++ n
  | Tz.offset s => "offset:" ++ toString s
  | Tz.utc => "UTC"

/-- Abstract, injective model of `datetime.strftime`: the rendered text is
determined by (and records) the format string, the instant and the
timezone in which the instant is interpreted. -/
def strftime (fmt : String) (dt : PyDateTime) : String :=
  "<strftime " ++ fmt ++ " @" ++ toString dt.epoch ++ " " ++ tzTag dt.tz ++ ">"

/-- A `sys.exc_info()`-style tuple held in `record.exc_info`:
`noneTuple` is `(None, None, None)` (truthy, but rendering to
`"NoneType: None"`), `exc` is a real exception whose field is the text
`logging.Formatter.formatException` renders for it. -/
inductive ExcInfo where
  | noneTuple
  | exc (rendered : String)
  deriving DecidableEq, Repr

/-- `logging.Formatter.formatException`: renders the traceback text; the
`(None, None, None)` tuple renders as `"NoneType: None"` with a trailing
newline. -/
def formatException : ExcInfo → String
  | ExcInfo.noneTuple => "NoneType: None\n"
  | ExcInfo.exc t => t

/-- `str()` of the raw `exc_info` tuple (used when the extras loop copies
the attribute into `data` and `json.dumps(default=str)` coerces it). -/
def excTupleText : ExcInfo → String
  | ExcInfo.noneTuple => "(None, None, None)"
  | ExcInfo.exc t => "(<class>, <exc " ++ t ++ ">, <traceback>)"

/-- The raw value of the `exc_info` attribute as seen by `vars(record)`. -/
def pyOfExcInfo : Option ExcInfo → PyValue
  | Option.none => PyValue.none
  | Option.some e => PyValue.nonSerializable (excTupleText e)

/-- The raw value of an optional-string attribute (`stack_info`,
`exc_text`, `taskName`). -/
def pyOfOptStr : Option String → PyValue
  | Option.none => PyValue.none
  | Option.some s => PyValue.str s

/-- A `logging.LogRecord`, with one field per attribute that
`LogRecord.__init__` stores in the instance dictionary (in that order),
plus the caller-supplied extra attributes appended afterwards.
`created` is the record's epoch timestamp (`record.created`).
`getMessageR` is the outcome of `record.getMessage()`
(`str(msg) % args`), which raises `TypeError`/`ValueError` when the
percent-template does not match the arguments — `Except.error` models
that. -/
structure LogRecord where
  name : PyValue
  msg : PyValue
  args : PyValue
  levelname : PyValue
  levelno : PyValue
  pathname : PyValue
  filename : PyValue
  module : PyValue
  excInfo : Option ExcInfo
  excText : PyValue
  stackInfo : Option String
  lineno : PyValue
  funcName : PyValue
  created : Int
  msecs : PyValue
  relativeCreated : PyValue
  thread : PyValue
  threadName : PyValue
  processName : PyValue
  process : PyValue
  taskName : PyValue
  extras : List (String × PyValue)
  getMessageR : Except Unit String

/-- `vars(record)`: the record's instance dictionary, standard attributes
in `LogRecord.__init__` order followed by the extras. -/
def varsOf (r : LogRecord) : List (String × PyValue) :=
  [("name", r.name), ("msg", r.msg), ("args", r.args),
   ("levelname", r.levelname), ("levelno", r.levelno),
   ("pathname", r.pathname), ("filename", r.filename),
   ("module", r.module), ("exc_info", pyOfExcInfo r.excInfo),
   ("exc_text", r.excText), ("stack_info", pyOfOptStr r.stackInfo),
   ("lineno", r.lineno), ("funcName", r.funcName),
   ("created", PyValue.int r.created), ("msecs", r.msecs),
   ("relativeCreated", r.relativeCreated), ("thread", r.thread),
   ("threadName", r.threadName), ("processName", r.processName),
   ("process", r.process), ("taskName", r.taskName)] ++ r.extras

/-- `getattr(record, key, None)`. -/
def getattrRecord (r : LogRecord) (key : String) : PyValue :=
  (pyGet key (varsOf r)).getD PyValue.none

/-- The state of a constructed `JSONLogFormatter`: the stored
configuration `cfg`, the active keys `include_keys` (keys of
`cfg["included_keys"]` whose mark is truthy, in dictionary order),
`datefmt = cfg.get("date_format")` and the resolved timezone `tz`. -/
structure JSONLogFormatter where
  cfg : Cfg
  includeKeys : List String
  datefmt : Option String
  tz : Tz

/-- The warning `JSONLogFormatter.__init__` prints when the configured
timezone identifier does not resolve. -/
def tzWarningLine : String :=
  "WARNING:pylogcfg:Invalid timezone. Using local timezone."

/-- `JSONLogFormatter.__init__(json_config)` (cfg_pylogcfg.py lines
109-131).  `json_config or \x7b\x7d` becomes `Option.getD`; the
`.items()` iteration over `included_keys` raises (`Except.error`) when a
present `included_keys` value is not a dictionary; `ZoneInfo(...)` is
attempted on `cfg.get("timezone", "America/Sao_Paulo")` and any failure
is caught, printing the warning and falling back to the host's local
timezone (or UTC when that is falsy).  Returns the formatter together
with the list of printed warning lines. -/
def mkJSONLogFormatter (env : TzEnv) (json_config : Option Cfg) :
    Except PyExn (JSONLogFormatter × List String) :=
  let cfg := json_config.getD []
  match cfgGetD cfg "included_keys" (PyValue.dict []) with
  | PyValue.dict activeKeys =>
      let includeKeys := (activeKeys.filter (fun kv => pyTruthy kv.2)).map (fun kv => kv.1)
      let datefmt : Option String :=
        match cfgGet cfg "date_format" with
        | PyValue.str s => Option.some s
        | _ => Option.none
      let tzres : Tz × List String :=
        match cfgGetD cfg "timezone" (PyValue.str "America/Sao_Paulo") with
        | PyValue.str s =>
            if env.isValid s then (Tz.zone s, [])
            else (env.localTz.getD Tz.utc, [tzWarningLine])
        | _ => (env.localTz.getD Tz.utc, [tzWarningLine])
      Except.ok ({ cfg := cfg, includeKeys := includeKeys,
                   datefmt := datefmt, tz := tzres.1 }, tzres.2)
  | v => Except.error (PyExn.typeError (pyStr v))

/-- Python `a or b` on strings, where the empty string is falsy. -/
def pyOrStr (a : Option String) (b : String) : String :=
  match a with
  | Option.some s => if s = "" then b else s
  | Option.none => b

/-- `JSONLogFormatter.formatTime` (cfg_pylogcfg.py lines 175-195):
`datetime.fromtimestamp(record.created, tz=self.tz).strftime(datefmt or
self.datefmt or "%Y-%m-%dT%H:%M:%S%z")`. -/
def formatTime (f : JSONLogFormatter) (r : LogRecord)
    (datefmt : Option String) : String :=
  strftime (pyOrStr datefmt (pyOrStr f.datefmt "%Y-%m-%dT%H:%M:%S%z"))
    { epoch := r.created, tz := f.tz }

/-- Stage 1 of `JSONLogFormatter.format` (cfg_pylogcfg.py lines 147-152):
`data[key] = getattr(record, key, None)` for each active key that is a
recognized standard key. -/
def fdBase (f : JSONLogFormatter) (r : LogRecord) : List (String × PyValue) :=
  f.includeKeys.foldl
    (fun d key =>
      if key ∈ LOG_RECORD_KEYS then dictSet d key (getattrRecord r key) else d)
    []

/-- Stage 2 (lines 154-156): the unconditional `app`, `environment` and
`created` stamps (`created` holds `self.formatTime(record, self.datefmt)`). -/
def fdStamped (f : JSONLogFormatter) (r : LogRecord) : List (String × PyValue) :=
  dictSet
    (dictSet (dictSet (fdBase f r) "app" (cfgGet f.cfg "app"))
      "environment" (cfgGet f.cfg "environment"))
    "created" (PyValue.str (formatTime f r f.datefmt))

/-- Stage 4 (lines 159-162): if `record.exc_info` is truthy render the
traceback, suppressing the `"NoneType: None"` rendering. -/
def fdExc (r : LogRecord) (d : List (String × PyValue)) :
    List (String × PyValue) :=
  match r.excInfo with
  | Option.some e =>
      if pyStrip (formatException e) ≠ "NoneType: None" then
        dictSet d "exc_info" (PyValue.str (formatException e))
      else d
  | Option.none => d

/-- Stage 5 (lines 164-165): if `record.stack_info` is truthy store it
(`logging.Formatter.formatStack` is the identity on the stored text). -/
def fdStack (r : LogRecord) (d : List (String × PyValue)) :
    List (String × PyValue) :=
  match r.stackInfo with
  | Option.some s => if s ≠ "" then dictSet d "stack_info" (PyValue.str s) else d
  | Option.none => d

/-- Stage 6 (lines 167-171): when `cfg.get("include_extras", True)` is
truthy, merge every `vars(record)` attribute whose name is not a
recognized standard key. -/
def fdExtras (f : JSONLogFormatter) (r : LogRecord)
    (d : List (String × PyValue)) : List (String × PyValue) :=
  if pyTruthy (cfgGetD f.cfg "include_extras" (PyValue.bool true)) then
    (varsOf r).foldl
      (fun d kv => if kv.1 ∉ LOG_RECORD_KEYS then dictSet d kv.1 kv.2 else d)
      d
  else d

/-- `JSONLogFormatter.format` (cfg_pylogcfg.py lines 133-173) up to the
final `json.dumps`: builds the `data` dictionary through the stages
above.  The only fallible step is `record.getMessage()` (line 157); the
stages before it are pure, so hoisting the `Except`-bind to the front is
behaviour-preserving. -/
def formatData (f : JSONLogFormatter) (r : LogRecord) :
    Except Unit (List (String × PyValue)) :=
  match r.getMessageR with
  | Except.error e => Except.error e
  | Except.ok m =>
      Except.ok (fdExtras f r (fdStack r (fdExc r
        (dictSet (fdStamped f r) "message" (PyValue.str m)))))

/-- `JSONLogFormatter.format`: the `data` dictionary serialized by
`json.dumps(data, default=str, ensure_ascii=False)`. -/
def formatRecord (f : JSONLogFormatter) (r : LogRecord) :
    Except Unit String :=
  (formatData f r).map (fun d => dumpsD (PyValue.dict d))

/-- The key list of the formatted output object (empty on the raising
path); convenience wrapper used by concrete statements. -/
def formatKeys (f : JSONLogFormatter) (r : LogRecord) : List String :=
  match formatData f r with
  | Except.ok d => keysOf d
  | Except.error _ => []

/-- The value stored under `k` in the formatted output object (`None` on
the raising path); convenience wrapper used by concrete statements. -/
def formatLookup (f : JSONLogFormatter) (r : LogRecord) (k : String) :
    Option PyValue :=
  match formatData f r with
  | Except.ok d => pyGet k d
  | Except.error _ => Option.none

/-- `create_default_config`'s default configuration document
(cfg_pylogcfg.py lines 49-62).  `logging.BASIC_FORMAT` is
`"%(levelname)s:%(name)s:%(message)s"`; the absolute `logs_dir` prefix is
host-dependent and modelled by the fixed text below. -/
def defaultConfig : Cfg :=
  [("environment", PyValue.str "development"),
   ("app", PyValue.str "my_system"),
   ("logs_dir", PyValue.str "data/logs"),
   ("console_format", PyValue.str "%(levelname)s:%(name)s:%(message)s"),
   ("date_format", PyValue.str "%Y-%m-%dT%H:%M:%S%z"),
   ("include_extras", PyValue.bool false),
   ("level", PyValue.str "DEBUG"),
   ("logger_name", PyValue.str "mylogger"),
   ("backup_count", PyValue.int 5),
   ("max_log_size", PyValue.int 5242880),
   ("timezone", PyValue.str "America/Sao_Paulo"),
   ("included_keys", PyValue.dict (LOG_RECORD_KEYS.map (fun k => (k, PyValue.bool true))))]

/-- The module-level mutable state of `pylogcfg.py` (lines 20-23): the
globals `_listener`, `_logger`, `_log_queue`.  Each live object is
identified by the value of `nextId` at its construction, so `nextId`
advances exactly when a queue, handler, listener or logger is
constructed. -/
structure FacadeState where
  listener : Option Nat
  logger : Option Nat
  logQueue : Option Nat
  nextId : Nat
  deriving DecidableEq, Repr

/-- The pristine module state: all three globals are `None`. -/
def initState : FacadeState :=
  { listener := Option.none, logger := Option.none,
    logQueue := Option.none, nextId := 0 }

/-- The `RotatingFileHandler` configuration assembled by
`initialize_logging` (pylogcfg.py lines 50-59): `filename`, `maxBytes`,
`backupCount` (with the source's defaults already applied), plus the id
under which the handler was constructed. -/
structure HandlerCfg where
  filename : String
  maxBytes : Int
  backupCount : Int
  id : Nat
  deriving DecidableEq, Repr

/-- `logging.config.dictConfig` applied to the dictionary built in
pylogcfg.py lines 67-99: the one input-dependent entry is
`json_config.get("console_format")`, which the console formatter accepts
when it is a string or `None` and rejects otherwise. -/
def dictConfigStep (consoleFormat : PyValue) : Except PyExn Unit :=
  match consoleFormat with
  | PyValue.str _ => Except.ok ()
  | PyValue.none => Except.ok ()
  | v => Except.error (PyExn.valueError (pyStr v))

/-- `initialize_logging(json_config)` (pylogcfg.py lines 26-104), run
under `_init_lock` — the lock serializes callers, so one sequential
transition models each (possibly concurrent) call.  Returns the raised
exception or the logger handle, together with the module state as the
function leaves it; note that the global `_log_queue` is assigned
*before* the fallible `int(...)` conversions and `_listener` before
`dictConfig`, so those assignments survive a failure. -/
def initLogging (cfg : Cfg) (st : FacadeState) :
    Except PyExn Nat × FacadeState :=
  match st.logger with
  | Option.some l => (Except.ok l, st)
  | Option.none =>
    let qid := st.nextId
    let st1 : FacadeState :=
      { st with logQueue := Option.some qid, nextId := st.nextId + 1 }
    let logFile := pyStr (cfgGet cfg "log_file")
    match pyInt (cfgGetD cfg "max_log_size" (PyValue.int 5242880)) with
    | Except.error e => (Except.error e, st1)
    | Except.ok maxBytes =>
      match pyInt (cfgGetD cfg "backup_count" (PyValue.int 5)) with
      | Except.error e => (Except.error e, st1)
      | Except.ok backupCount =>
        let handler : HandlerCfg :=
          { filename := logFile, maxBytes := maxBytes,
            backupCount := backupCount, id := st1.nextId }
        let st2 : FacadeState := { st1 with nextId := st1.nextId + 1 }
        let st3 : FacadeState :=
          { st2 with listener := Option.some st2.nextId,
                     nextId := st2.nextId + 1 }
        match dictConfigStep (cfgGet cfg "console_format") with
        | Except.error e => (Except.error e, st3)
        | Except.ok _ =>
          let st4 : FacadeState :=
            { st3 with logger := Option.some st3.nextId,
                       nextId := st3.nextId + 1 }
          (Except.ok st3.nextId, st4)

/-- The `try/except` around `initialize_logging` inside `get_logger`
(pylogcfg.py lines 169-172): any exception is re-raised as
`RuntimeError("Failed to initialize logging.")` with the original
exception as its cause. -/
def getLoggerInit (cfg : Cfg) (st : FacadeState) :
    Except PyExn Nat × FacadeState :=
  match initLogging cfg st with
  | (Except.ok l, st') => (Except.ok l, st')
  | (Except.error e, st') =>
      (Except.error (PyExn.runtimeError "Failed to initialize logging." e), st')

/-- Split a character list at the last `/`: returns the directory part
(trailing slash included) and the final path component, mirroring how
`pathlib` isolates `Path(...).name`. -/
def splitLastSlash (l : List Char) : List Char × List Char :=
  let sp := l.reverse.span (fun c => c ≠ '/')
  (sp.2.reverse, sp.1.reverse)

/-- The length (dot included) of `PurePath(...).suffix` of a file name:
nonzero exactly when the last dot of the name is neither its first nor
its last character. -/
def suffixLen (name : List Char) : Nat :=
  let sp := name.reverse.span (fun c => c ≠ '.')
  match sp.2 with
  | [] => 0
  | _ :: baseRev =>
      if baseRev = [] ∨ sp.1 = [] then 0 else sp.1.length + 1

/-- `Path(name).with_suffix(".jsonl").as_posix()`: drop the name's
current suffix (if any) and append `.jsonl`; `as_posix` is the identity
on the already-POSIX path strings this code passes. -/
def withSuffixJsonl (s : String) : String :=
  let parts := splitLastSlash s.data
  let name := parts.2
  String.mk (parts.1 ++ name.take (name.length - suffixLen name) ++ ".jsonl".data)

/-- The rotation namer installed on the handler (pylogcfg.py line 57):
`file_handler.namer = lambda name: Path(name).with_suffix(".jsonl").as_posix()`.
`RotatingFileHandler.doRollover` applies it to each `base + "." + str(i)`
backup name. -/
def rotNamer (name : String) : String := withSuffixJsonl name

/-- The backup name `"%s.%d" % (baseFilename, i)` that
`RotatingFileHandler` feeds to the namer, with the decimal digits of the
index given explicitly as a character list. -/
def backupName (base : String) (digits : List Char) : String :=
  String.mk (base.data ++ '.' :: digits)

/-- The environment of one `_stop_listener` run: `time k` is the value of
the `k`-th `time.monotonic()` call (call 0 computes the deadline, call
`k ≥ 1` is the `k`-th loop check), `qsize k` the result of the `k`-th
`qsize()` call (`Except.error` models it raising; call 0 computes the
`pending` message, call `k ≥ 1` sits in the `k`-th loop iteration), and
`stopFails` whether `listener.stop()` raises. -/
structure StopEnv where
  time : Nat → Rat
  qsize : Nat → Except Unit Nat
  stopFails : Bool

/-- The drain loop of `_stop_listener` (pylogcfg.py lines 129-136):
starting before check `k+1`, keep looping while `time.monotonic()` is
under the deadline and the queue is present with a positive (and
non-raising) `qsize`, sleeping 0.05 s per iteration.  Returns the index
of the last check executed; `fuel` bounds the recursion and is shown
irrelevant once it covers the 2-second budget. -/
def drainLoop (env : StopEnv) (queuePresent : Bool) (deadline : Rat) :
    Nat → Nat → Nat
  | 0, k => k
  | Nat.succ fuel, k =>
    if env.time (k + 1) < deadline then
      if queuePresent then
        match env.qsize (k + 1) with
        | Except.error _ => k
        | Except.ok 0 => k
        | Except.ok (Nat.succ _) => drainLoop env queuePresent deadline fuel (k + 1)
      else k
    else k

/-- The outcome of one `_stop_listener` run: the module state it leaves,
the lines it printed, whether `listener.stop()` was invoked, and how many
loop checks ran. -/
structure StopResult where
  state : FacadeState
  printed : List String
  stopCalled : Bool
  polls : Nat
  deriving DecidableEq, Repr

/-- `_stop_listener()` (pylogcfg.py lines 107-145): a no-op when
`_listener is None`; otherwise it reads an advisory pending count
(`-1` when the queue is missing or `qsize` raises), prints, polls the
queue until it drains or the 2-second deadline passes, then calls
`listener.stop()` unconditionally — even if `stop()` raises, the
`finally` block clears `_listener` and `_log_queue` (but never
`_logger`). -/
def stopListener (env : StopEnv) (fuel : Nat) (st : FacadeState) : StopResult :=
  match st.listener with
  | Option.none => { state := st, printed := [], stopCalled := false, polls := 0 }
  | Option.some _ =>
    let pending : Int :=
      match st.logQueue with
      | Option.some _ =>
          match env.qsize 0 with
          | Except.ok n => (n : Int)
          | Except.error _ => -1
      | Option.none => -1
    let line1 := "INFO:pylogcfg:Listener stopping (" ++ toString pending
      ++ " pending messages)..."
    let deadline := env.time 0 + 2
    let n := drainLoop env st.logQueue.isSome deadline fuel 0
    let line2 :=
      if env.stopFails then "ERROR:pylogcfg:Failed to stop listener: <exc>"
      else "INFO:pylogcfg:Listener stopped successfully."
    { state := { st with listener := Option.none, logQueue := Option.none },
      printed := [line1, line2], stopCalled := true, polls := n }



theorem keysOf_dictSet (d : List (String × PyValue)) (k : String) (v : PyValue) :
    keysOf (dictSet d k v) =
      if d.any (fun kv => kv.1 = k) then keysOf d else keysOf d ++ [k] := by
  unfold dictSet
  split
  · simp only [keysOf, List.map_map]
    refine List.map_congr_left ?_
    intro kv _
    by_cases h : kv.1 = k
    · simp [h]
    · simp [h]
  · simp [keysOf]

theorem mem_keysOf_dictSet {a : String} {d : List (String × PyValue)}
    {k : String} {v : PyValue} :
    a ∈ keysOf (dictSet d k v) ↔ a = k ∨ a ∈ keysOf d := by
  rw [keysOf_dictSet]
  split
  · rename_i h
    constructor
    · exact Or.inr
    · rintro (rfl | h')
      · rcases List.any_eq_true.mp h with ⟨kv, hkv, hdec⟩
        have : kv.1 = a := of_decide_eq_true hdec
        exact this ▸ List.mem_map.mpr ⟨kv, hkv, rfl⟩
      · exact h'
  · simp only [List.mem_append, List.mem_singleton]
    exact Or.comm

theorem pyGet_map_set_self (k : String) (v : PyValue) :
    ∀ d : List (String × PyValue), d.any (fun kv => kv.1 = k) = true →
      pyGet k (d.map (fun kv => (kv.1, if kv.1 = k then v else kv.2))) =
        Option.some v := by
  intro d
  induction d with
  | nil => intro h; simp at h
  | cons hd tl ih =>
      obtain ⟨k1, v1⟩ := hd
      intro h
      by_cases hk : k1 = k
      · subst hk
        simp [pyGet]
      · have htl : tl.any (fun kv => kv.1 = k) = true := by
          simp only [List.any_cons, Bool.or_eq_true] at h
          rcases h with h1 | h2
          · exact absurd (of_decide_eq_true h1) hk
          · exact h2
        simp only [List.map_cons, pyGet, if_neg hk]
        exact ih htl

theorem pyGet_map_set_ne {a k : String} (h : a ≠ k) (v : PyValue) :
    ∀ d : List (String × PyValue),
      pyGet a (d.map (fun kv => (kv.1, if kv.1 = k then v else kv.2))) =
        pyGet a d := by
  intro d
  induction d with
  | nil => rfl
  | cons hd tl ih =>
      obtain ⟨k1, v1⟩ := hd
      by_cases hka : k1 = a
      · subst hka
        have hk : ¬ k1 = k := fun hEq => h (hEq ▸ rfl)
        simp [pyGet, hk]
      · simp only [List.map_cons, pyGet, if_neg hka]
        exact ih

theorem pyGet_append_single_self (k : String) (v : PyValue) :
    ∀ d : List (String × PyValue), (∀ kv ∈ d, kv.1 ≠ k) →
      pyGet k (d ++ [(k, v)]) = Option.some v := by
  intro d
  induction d with
  | nil => intro _; simp [pyGet]
  | cons hd tl ih =>
      obtain ⟨k1, v1⟩ := hd
      intro h
      have hk : k1 ≠ k := h (k1, v1) (List.mem_cons_self _ _)
      simp only [List.cons_append, pyGet, if_neg hk]
      exact ih (fun kv hkv => h kv (List.mem_cons_of_mem _ hkv))

theorem pyGet_append_single_ne {a k : String} (h : a ≠ k) (v : PyValue) :
    ∀ d : List (String × PyValue), pyGet a (d ++ [(k, v)]) = pyGet a d := by
  intro d
  induction d with
  | nil =>
      have hka : ¬ k = a := fun hEq => h hEq.symm
      simp [pyGet, hka]
  | cons hd tl ih =>
      obtain ⟨k1, v1⟩ := hd
      by_cases hka : k1 = a
      · simp [pyGet, hka]
      · simp only [List.cons_append, pyGet, if_neg hka]
        exact ih

theorem pyGet_dictSet_self (d : List (String × PyValue)) (k : String)
    (v : PyValue) : pyGet k (dictSet d k v) = Option.some v := by
  unfold dictSet
  split
  · rename_i h
    exact pyGet_map_set_self k v d h
  · rename_i h
    refine pyGet_append_single_self k v d ?_
    intro kv hkv hEq
    exact h (List.any_eq_true.mpr ⟨kv, hkv, decide_eq_true hEq⟩)

theorem pyGet_dictSet_ne {a k : String} (h : a ≠ k)
    (d : List (String × PyValue)) (v : PyValue) :
    pyGet a (dictSet d k v) = pyGet a d := by
  unfold dictSet
  split
  · exact pyGet_map_set_ne h v d
  · exact pyGet_append_single_ne h v d

theorem mem_keysOf_foldl_of_mem {α : Type} (p : α → Prop) [DecidablePred p]
    (κ : α → String) (ν : α → PyValue) (l : List α)
    {a : String} :
    ∀ d : List (String × PyValue), a ∈ keysOf d →
      a ∈ keysOf (l.foldl
        (fun d x => if p x then dictSet d (κ x) (ν x) else d) d) := by
  induction l with
  | nil => intro d h; exact h
  | cons x xs ih =>
      intro d h
      simp only [List.foldl_cons]
      refine ih _ ?_
      by_cases hp : p x
      · rw [if_pos hp]
        exact mem_keysOf_dictSet.mpr (Or.inr h)
      · rw [if_neg hp]
        exact h

theorem mem_keysOf_foldl_self {α : Type} (p : α → Prop) [DecidablePred p]
    (κ : α → String) (ν : α → PyValue) {x : α} (l : List α)
    (hx : x ∈ l) (hp : p x) :
    ∀ d : List (String × PyValue),
      κ x ∈ keysOf (l.foldl
        (fun d y => if p y then dictSet d (κ y) (ν y) else d) d) := by
  induction l with
  | nil => cases hx
  | cons y ys ih =>
      intro d
      simp only [List.foldl_cons]
      rcases List.mem_cons.mp hx with rfl | hmem
      · refine mem_keysOf_foldl_of_mem p κ ν ys _ ?_
        rw [if_pos hp]
        exact mem_keysOf_dictSet.mpr (Or.inl rfl)
      · exact ih hmem _

theorem not_mem_keysOf_foldl {α : Type} (p : α → Prop) [DecidablePred p]
    (κ : α → String) (ν : α → PyValue) (l : List α)
    {a : String} (hl : ∀ x ∈ l, p x → κ x ≠ a) :
    ∀ d : List (String × PyValue), a ∉ keysOf d →
      a ∉ keysOf (l.foldl
        (fun d x => if p x then dictSet d (κ x) (ν x) else d) d) := by
  induction l with
  | nil => intro d h; exact h
  | cons x xs ih =>
      intro d h
      simp only [List.foldl_cons]
      refine ih (fun y hy => hl y (List.mem_cons_of_mem _ hy)) _ ?_
      by_cases hp : p x
      · rw [if_pos hp]
        intro hmem
        rcases mem_keysOf_dictSet.mp hmem with rfl | h'
        · exact hl x (List.mem_cons_self _ _) hp rfl
        · exact h h'
      · rw [if_neg hp]
        exact h

theorem pyGet_foldl_of_ne {α : Type} (p : α → Prop) [DecidablePred p]
    (κ : α → String) (ν : α → PyValue) (l : List α)
    {a : String} (hl : ∀ x ∈ l, p x → κ x ≠ a) :
    ∀ d : List (String × PyValue),
      pyGet a (l.foldl
        (fun d x => if p x then dictSet d (κ x) (ν x) else d) d) =
        pyGet a d := by
  induction l with
  | nil => intro d; rfl
  | cons x xs ih =>
      intro d
      simp only [List.foldl_cons]
      rw [ih (fun y hy => hl y (List.mem_cons_of_mem _ hy))]
      by_cases hp : p x
      · rw [if_pos hp]
        refine pyGet_dictSet_ne ?_ d (ν x)
        intro hEq
        exact hl x (List.mem_cons_self _ _) hp hEq.symm
      · rw [if_neg hp]

/-- `true` exactly on the non-raising outcome of an embedded formatter
call. -/
def isOkStr : Except Unit String → Bool
  | Except.ok _ => true
  | Except.error _ => false

/-- A host environment whose zone database resolves exactly
`America/Sao_Paulo` and whose local timezone is UTC-3 (São Paulo's
standard offset). -/
def envW : TzEnv :=
  { isValid := fun s => s = "America/Sao_Paulo",
    localTz := Option.some (Tz.offset (-10800)) }

/-- A host environment that resolves no timezone identifier and has a
falsy local timezone, exercising the UTC fallback. -/
def envBad : TzEnv :=
  { isValid := fun _ => false, localTz := Option.none }

/-- The formatter a successful `JSONLogFormatter(json_config)` call
produces (the fallback arm is unreachable at the call sites used
below). -/
def fmtOf (env : TzEnv) (c : Option Cfg) : JSONLogFormatter :=
  match mkJSONLogFormatter env c with
  | Except.ok (f, _) => f
  | Except.error _ =>
      { cfg := [], includeKeys := [], datefmt := Option.none, tz := Tz.utc }

/-- `logging.LogRecord("t", logging.INFO, "", 0, "hello", (), None)`:
a plain record with no exception info, no stack info and no extras
(as built in `tests/test_cfg_pylogcfg.py`). -/
def recPlain : LogRecord :=
  { name := PyValue.str "t", msg := PyValue.str "hello",
    args := PyValue.list [], levelname := PyValue.str "INFO",
    levelno := PyValue.int 20, pathname := PyValue.str "",
    filename := PyValue.str "", module := PyValue.str "",
    excInfo := Option.none, excText := PyValue.none,
    stackInfo := Option.none, lineno := PyValue.int 0,
    funcName := PyValue.none, created := 1700000000,
    msecs := PyValue.int 0, relativeCreated := PyValue.int 0,
    thread := PyValue.int 1, threadName := PyValue.str "MainThread",
    processName := PyValue.str "MainProcess", process := PyValue.int 42,
    taskName := PyValue.none, extras := [],
    getMessageR := Except.ok "hello" }

/-- `recPlain` with the extra attribute `my_extra = "value_x"`
(as in `test_json_formatter_includes_extras`). -/
def recExtra : LogRecord :=
  { recPlain with extras := [("my_extra", PyValue.str "value_x")] }

/-- A record whose percent-template does not match its arguments
(`logger.info("%d", "x")`): `record.getMessage()` raises `TypeError`,
modelled by `Except.error`. -/
def recBadMsg : LogRecord :=
  { recPlain with
    msg := PyValue.str "%d",
    args := PyValue.list [PyValue.str "x"],
    getMessageR := Except.error () }

/-- The formatter built from an empty configuration dictionary. -/
def fmtEmpty : JSONLogFormatter := fmtOf envW (Option.some [])

/-- The formatter built from the default configuration document. -/
def fmtDefault : JSONLogFormatter := fmtOf envW (Option.some defaultConfig)

/-- C1: once `initialize_logging` has completed successfully (the global
`_logger` is set), every later call — callers are serialized by
`_init_lock`, so each call is one sequential transition — returns the
existing logger handle and leaves the module state untouched: no new
queue, handler or listener is constructed (`nextId` does not advance). -/
theorem c1_reinit_noop (cfg : Cfg) (st : FacadeState) (l : Nat)
    (h : st.logger = Option.some l) :
    initLogging cfg st = (Except.ok l, st) := by
  unfold initLogging
  rw [h]

/-- The module state after one successful `initialize_logging` run on the
pristine state. -/
def stReady : FacadeState := (initLogging [] initState).2

theorem c1_reinit_noop_witness :
    initLogging [] stReady = (Except.ok 3, stReady) :=
  c1_reinit_noop [] stReady 3 rfl

theorem initLogging_error_logger (cfg : Cfg) (st : FacadeState)
    (e : PyExn) (st' : FacadeState)
    (h : initLogging cfg st = (Except.error e, st')) :
    st'.logger = st.logger := by
  unfold initLogging at h
  split at h
  · exact absurd (congrArg Prod.fst h) (by simp)
  · split at h
    · obtain ⟨-, hst⟩ := Prod.mk.injEq .. ▸ h
      rw [← hst]
    · split at h
      · obtain ⟨-, hst⟩ := Prod.mk.injEq .. ▸ h
        rw [← hst]
      · split at h
        · obtain ⟨-, hst⟩ := Prod.mk.injEq .. ▸ h
          rw [← hst]
        · exact absurd (congrArg Prod.fst h) (by simp)

/-- C4 (amended): any exception during pipeline construction is
re-raised by `get_logger` wrapped as
`RuntimeError("Failed to initialize logging.")` with the original
exception as cause, and the global `_logger` is left untouched (still
unset when the call started uninitialized), so a later call retries the
construction; however the global `_log_queue` is assigned before the
fallible steps, so a queue handle can survive the failure — the original
claim's "no global queue is published" is false. -/
theorem c4_init_failure_wrapped (cfg : Cfg) (st : FacadeState)
    (e : PyExn) (st' : FacadeState)
    (h : initLogging cfg st = (Except.error e, st')) :
    getLoggerInit cfg st =
      (Except.error (PyExn.runtimeError "Failed to initialize logging." e), st')
    ∧ st'.logger = st.logger := by
  refine ⟨?_, initLogging_error_logger cfg st e st' h⟩
  unfold getLoggerInit
  rw [h]

/-- C4 counterexample: with `max_log_size = "abc"` the `int()` conversion
raises after the global `_log_queue` has already been assigned: the call
fails wrapped in `RuntimeError` (and `_logger` stays unset), but the
queue handle (id 0) *is* published, contradicting "no global queue ...
is published". -/
theorem c4_counterexample :
    getLoggerInit [("max_log_size", PyValue.str "abc")] initState =
      (Except.error (PyExn.runtimeError "Failed to initialize logging."
          (PyExn.valueError "abc")),
        { listener := Option.none, logger := Option.none,
          logQueue := Option.some 0, nextId := 1 }) := by
  rfl

theorem c4_init_failure_wrapped_witness :
    getLoggerInit [("max_log_size", PyValue.str "abc")] initState =
      (Except.error (PyExn.runtimeError "Failed to initialize logging."
          (PyExn.valueError "abc")),
        (initLogging [("max_log_size", PyValue.str "abc")] initState).2)
    ∧ (initLogging [("max_log_size", PyValue.str "abc")] initState).2.logger
        = initState.logger :=
  c4_init_failure_wrapped [("max_log_size", PyValue.str "abc")] initState
    (PyExn.valueError "abc")
    (initLogging [("max_log_size", PyValue.str "abc")] initState).2 rfl

/-- A fast-clock shutdown environment: the monotonic clock advances by
0.05 s per reading and the queue reports drained immediately. -/
def stopEnvFast : StopEnv :=
  { time := fun k => (k : Rat) / 20,
    qsize := fun _ => Except.ok 0, stopFails := false }

/-- A shutdown environment in which the queue always reports 5 pending
events, so only the 2-second budget ends the drain loop. -/
def stopEnvStuck : StopEnv :=
  { time := fun k => (k : Rat) / 20,
    qsize := fun _ => Except.ok 5, stopFails := false }

/-- C3 (amended): after `_stop_listener` runs on a state with an active
listener, the queue and listener handles are released, but the logger
handle is *not* cleared; a subsequent `initialize_logging` call therefore
returns the stale logger handle as a no-op and does not rebuild the
queue, sink, formatter or listener. -/
theorem c3_stop_then_reinit (env : StopEnv) (fuel : Nat) (st : FacadeState)
    (lid l : Nat) (hl : st.listener = Option.some lid)
    (hlog : st.logger = Option.some l) :
    (stopListener env fuel st).state.listener = Option.none ∧
    (stopListener env fuel st).state.logQueue = Option.none ∧
    (stopListener env fuel st).state.logger = Option.some l ∧
    ∀ cfg : Cfg, initLogging cfg (stopListener env fuel st).state =
      (Except.ok l, (stopListener env fuel st).state) := by
  have hs : (stopListener env fuel st).state =
      { st with listener := Option.none, logQueue := Option.none } := by
    unfold stopListener
    rw [hl]
  refine ⟨by rw [hs], by rw [hs], by rw [hs]; exact hlog, ?_⟩
  intro cfg
  refine c1_reinit_noop cfg _ l ?_
  rw [hs]
  exact hlog

/-- C3 counterexample: run a successful initialization, then
`_stop_listener`, then `initialize_logging` again — the second
initialization leaves the listener and queue handles `None` (nothing is
rebuilt) and hands back the stale logger handle, contradicting
"rebuilds the queue, sink, formatter, and listener from scratch". -/
theorem c3_counterexample :
    (initLogging [] (stopListener stopEnvFast 41 stReady).state).2.listener
        = Option.none ∧
    (initLogging [] (stopListener stopEnvFast 41 stReady).state).2.logQueue
        = Option.none ∧
    (initLogging [] (stopListener stopEnvFast 41 stReady).state).1
        = Except.ok 3 := by
  refine ⟨?_, ?_, ?_⟩ <;> rfl

theorem c3_stop_then_reinit_witness :
    (stopListener stopEnvFast 41 stReady).state.listener = Option.none ∧
    (stopListener stopEnvFast 41 stReady).state.logQueue = Option.none ∧
    (stopListener stopEnvFast 41 stReady).state.logger = Option.some 3 ∧
    initLogging [] (stopListener stopEnvFast 41 stReady).state =
      (Except.ok 3, (stopListener stopEnvFast 41 stReady).state) :=
  have h := c3_stop_then_reinit stopEnvFast 41 stReady 2 3 rfl rfl
  ⟨h.1, h.2.1, h.2.2.1, h.2.2.2 []⟩

theorem time_growth (env : StopEnv)
    (hstep : ∀ j, 1 ≤ j → env.time j + 1 / 20 ≤ env.time (j + 1))
    (h01 : env.time 0 ≤ env.time 1) :
    ∀ k : Nat, env.time 0 + (k : Rat) / 20 ≤ env.time (k + 1) := by
  intro k
  induction k with
  | zero => simpa using h01
  | succ n ih =>
      have h2 := hstep (n + 1) (by omega)
      push_cast
      push_cast at ih
      linarith

theorem drainLoop_high (env : StopEnv) (qp : Bool)
    (hstep : ∀ j, 1 ≤ j → env.time j + 1 / 20 ≤ env.time (j + 1))
    (h01 : env.time 0 ≤ env.time 1) :
    ∀ (fuel k : Nat), 40 ≤ k →
      drainLoop env qp (env.time 0 + 2) fuel k = k := by
  intro fuel k hk
  cases fuel with
  | zero => rfl
  | succ f =>
      unfold drainLoop
      rw [if_neg]
      have hg := time_growth env hstep h01 k
      have hcast : (2 : Rat) ≤ (k : Rat) / 20 := by
        have : (40 : Rat) ≤ (k : Rat) := by exact_mod_cast hk
        linarith
      intro hlt
      linarith

theorem drainLoop_le (env : StopEnv) (qp : Bool)
    (hstep : ∀ j, 1 ≤ j → env.time j + 1 / 20 ≤ env.time (j + 1))
    (h01 : env.time 0 ≤ env.time 1) :
    ∀ (fuel k : Nat), k ≤ 40 →
      drainLoop env qp (env.time 0 + 2) fuel k ≤ 40 := by
  intro fuel
  induction fuel with
  | zero => intro k hk; exact hk
  | succ f ih =>
      intro k hk
      unfold drainLoop
      by_cases hc : env.time (k + 1) < env.time 0 + 2
      · rw [if_pos hc]
        cases qp with
        | false => exact hk
        | true =>
            have hk39 : k ≤ 39 := by
              by_contra hgt
              have hk40 : 40 ≤ k := by omega
              have hg := time_growth env hstep h01 k
              have hcast : (2 : Rat) ≤ (k : Rat) / 20 := by
                have : (40 : Rat) ≤ (k : Rat) := by exact_mod_cast hk40
                linarith
              linarith
            cases hq : env.qsize (k + 1) with
            | error e => simp [hq]; omega
            | ok n =>
                cases n with
                | zero => simp [hq]; omega
                | succ m =>
                    simp only [hq]
                    exact ih (k + 1) (by omega)
      · rw [if_neg hc]
        exact hk

theorem drainLoop_fuel_eq (env : StopEnv) (qp : Bool)
    (hstep : ∀ j, 1 ≤ j → env.time j + 1 / 20 ≤ env.time (j + 1))
    (h01 : env.time 0 ≤ env.time 1) :
    ∀ (f1 f2 k : Nat), 41 - k ≤ f1 → 41 - k ≤ f2 →
      drainLoop env qp (env.time 0 + 2) f1 k =
        drainLoop env qp (env.time 0 + 2) f2 k := by
  intro f1
  induction f1 with
  | zero =>
      intro f2 k h1 h2
      have hk : 40 ≤ k := by omega
      rw [drainLoop_high env qp hstep h01 0 k hk,
          drainLoop_high env qp hstep h01 f2 k hk]
  | succ f ih =>
      intro f2 k h1 h2
      by_cases hk : 40 ≤ k
      · rw [drainLoop_high env qp hstep h01 _ k hk,
            drainLoop_high env qp hstep h01 f2 k hk]
      · push_neg at hk
        cases f2 with
        | zero => omega
        | succ g =>
            unfold drainLoop
            by_cases hc : env.time (k + 1) < env.time 0 + 2
            · rw [if_pos hc, if_pos hc]
              cases qp with
              | false => rfl
              | true =>
                  cases hq : env.qsize (k + 1) with
                  | error e => rfl
                  | ok n =>
                      cases n with
                      | zero => rfl
                      | succ m =>
                          simp only
                          exact ih g (k + 1) (by omega) (by omega)
            · rw [if_neg hc, if_neg hc]

/-- C7: on a state with an active listener, `_stop_listener` polls the
advisory pending count, each executed check starting before the 2-second
deadline — under the physical facts that `time.monotonic()` is
non-decreasing and each loop iteration sleeps 0.05 s, at most 40 polls
run (the loop exits by drained queue, raised `qsize`, or elapsed budget,
whatever the queue reports) — then calls `listener.stop()`
unconditionally even if events remain pending, and clears the listener
and queue handles; the run is independent of any fuel covering the
budget, i.e. the routine terminates within the budget plus the final
stop step. -/
theorem c7_stop_bounded (env : StopEnv) (st : FacadeState) (lid : Nat)
    (hl : st.listener = Option.some lid)
    (hstep : ∀ j, 1 ≤ j → env.time j + 1 / 20 ≤ env.time (j + 1))
    (h01 : env.time 0 ≤ env.time 1)
    (fuel : Nat) (hfuel : 41 ≤ fuel) :
    (stopListener env fuel st).polls ≤ 40 ∧
    (stopListener env fuel st).stopCalled = true ∧
    (stopListener env fuel st).state.listener = Option.none ∧
    (stopListener env fuel st).state.logQueue = Option.none ∧
    stopListener env fuel st = stopListener env 41 st := by
  have hfe : drainLoop env st.logQueue.isSome (env.time 0 + 2) fuel 0 =
      drainLoop env st.logQueue.isSome (env.time 0 + 2) 41 0 :=
    drainLoop_fuel_eq env _ hstep h01 fuel 41 0 (by omega) (by omega)
  have hle : drainLoop env st.logQueue.isSome (env.time 0 + 2) fuel 0 ≤ 40 :=
    drainLoop_le env _ hstep h01 fuel 0 (by omega)
  unfold stopListener
  rw [hl]
  exact ⟨hle, rfl, rfl, rfl, by simp only [hfe]⟩

theorem c7_stop_bounded_witness :
    (stopListener stopEnvStuck 41 stReady).polls ≤ 40 ∧
    (stopListener stopEnvStuck 41 stReady).stopCalled = true ∧
    (stopListener stopEnvStuck 41 stReady).state.listener = Option.none ∧
    (stopListener stopEnvStuck 41 stReady).state.logQueue = Option.none ∧
    stopListener stopEnvStuck 41 stReady = stopListener stopEnvStuck 41 stReady :=
  c7_stop_bounded stopEnvStuck stReady 2 rfl
    (by
      intro j hj
      show (j : Rat) / 20 + 1 / 20 ≤ ((j + 1 : Nat) : Rat) / 20
      push_cast
      ring_nf
      linarith)
    (by norm_num [stopEnvStuck])
    41 (by omega)

theorem takeWhile_append_all {p : Char → Bool} :
    ∀ l1 l2 : List Char, (∀ c ∈ l1, p c = true) →
      (l1 ++ l2).takeWhile p = l1 ++ l2.takeWhile p := by
  intro l1
  induction l1 with
  | nil => intro l2 _; rfl
  | cons c cs ih =>
      intro l2 h
      have hc : p c = true := h c (List.mem_cons_self _ _)
      simp only [List.cons_append, List.takeWhile_cons, hc, if_true]
      rw [ih l2 (fun x hx => h x (List.mem_cons_of_mem _ hx))]

theorem dropWhile_append_all {p : Char → Bool} :
    ∀ l1 l2 : List Char, (∀ c ∈ l1, p c = true) →
      (l1 ++ l2).dropWhile p = l2.dropWhile p := by
  intro l1
  induction l1 with
  | nil => intro l2 _; rfl
  | cons c cs ih =>
      intro l2 h
      have hc : p c = true := h c (List.mem_cons_self _ _)
      simp only [List.cons_append, List.dropWhile_cons, hc, if_true]
      exact ih l2 (fun x hx => h x (List.mem_cons_of_mem _ hx))

theorem isDigit_ne_dot_slash {c : Char} (h : c.isDigit = true) :
    c ≠ '.' ∧ c ≠ '/' := by
  constructor
  · rintro rfl; exact absurd h (by decide)
  · rintro rfl; exact absurd h (by decide)

theorem withSuffixJsonl_backup (p : String) (d : List Char)
    (hname : (splitLastSlash p.data).2 ≠ [])
    (hd : d ≠ []) (hdig : ∀ c ∈ d, c.isDigit = true) :
    withSuffixJsonl (backupName p d) =
      String.mk ((splitLastSlash p.data).1 ++ (splitLastSlash p.data).2
        ++ ".jsonl".data) := by
  have hno : ∀ c ∈ d, (c ≠ '.' ∧ c ≠ '/') :=
    fun c hc => isDigit_ne_dot_slash (hdig c hc)
  have hrevno : ∀ c ∈ d.reverse, (c ≠ '.' ∧ c ≠ '/') :=
    fun c hc => hno c (List.mem_reverse.mp hc)
  have hall : ∀ c ∈ d.reverse ++ ['.'], (fun c => decide (c ≠ '/')) c = true := by
    intro c hc
    rcases List.mem_append.mp hc with h1 | h2
    · exact decide_eq_true (hrevno c h1).2
    · rw [List.mem_singleton.mp h2]; decide
  have hrev : (p.data ++ '.' :: d).reverse =
      (d.reverse ++ ['.']) ++ p.data.reverse := by
    simp
  have hsplit : splitLastSlash (p.data ++ '.' :: d) =
      ((splitLastSlash p.data).1, (splitLastSlash p.data).2 ++ '.' :: d) := by
    unfold splitLastSlash
    rw [List.span_eq_take_drop, List.span_eq_take_drop, hrev,
        takeWhile_append_all _ _ hall, dropWhile_append_all _ _ hall]
    simp
  have halldot : ∀ c ∈ d.reverse, (fun c => decide (c ≠ '.')) c = true :=
    fun c hc => decide_eq_true (hrevno c hc).1
  have hnamerev : ((splitLastSlash p.data).2 ++ '.' :: d).reverse =
      d.reverse ++ '.' :: (splitLastSlash p.data).2.reverse := by
    simp
  have hsuf : suffixLen ((splitLastSlash p.data).2 ++ '.' :: d) = d.length + 1 := by
    unfold suffixLen
    rw [List.span_eq_take_drop, hnamerev,
        takeWhile_append_all _ _ halldot, dropWhile_append_all _ _ halldot]
    have h1 : List.takeWhile (fun c => decide (c ≠ '.'))
        ('.' :: (splitLastSlash p.data).2.reverse) = [] := by
      simp [List.takeWhile_cons]
    have h2 : List.dropWhile (fun c => decide (c ≠ '.'))
        ('.' :: (splitLastSlash p.data).2.reverse) =
        '.' :: (splitLastSlash p.data).2.reverse := by
      simp [List.dropWhile_cons]
    rw [h1, h2]
    have hb : ¬ ((splitLastSlash p.data).2.reverse = [] ∨
        (d.reverse ++ ([] : List Char)) = []) := by
      rintro (h | h)
      · exact hname (by simpa using h)
      · exact hd (by simpa using h)
    simp only []
    rw [if_neg hb]
    simp
  simp only [withSuffixJsonl, backupName]
  rw [hsplit]
  simp only []
  rw [hsuf]
  have hlen : ((splitLastSlash p.data).2 ++ '.' :: d).length - (d.length + 1) =
      (splitLastSlash p.data).2.length := by
    simp [List.length_append]
  rw [hlen]
  have htake : ((splitLastSlash p.data).2 ++ '.' :: d).take
      (splitLastSlash p.data).2.length = (splitLastSlash p.data).2 :=
    List.take_left' rfl
  rw [htake, List.append_assoc]

/-- C5 (amended): every rotated backup filename the namer produces ends
with the structured-log extension `.jsonl`; however, the namer maps every
numeric rotation index to the *same* filename (the base path with its
final suffix replaced by `.jsonl`), so `doRollover`'s distinct backup
names collide instead of being kept distinct — at most one backup file
name ever exists (trivially within the configured backup count), and
each rotation's backup overwrites the previous one. -/
theorem c5_namer_collapses (p : String) (d1 d2 : List Char)
    (hname : (splitLastSlash p.data).2 ≠ [])
    (h1 : d1 ≠ []) (h1d : ∀ c ∈ d1, c.isDigit = true)
    (h2 : d2 ≠ []) (h2d : ∀ c ∈ d2, c.isDigit = true) :
    rotNamer (backupName p d1) = rotNamer (backupName p d2) ∧
    ".jsonl".data <:+ (rotNamer (backupName p d1)).data := by
  constructor
  · show withSuffixJsonl _ = withSuffixJsonl _
    rw [withSuffixJsonl_backup p d1 hname h1 h1d,
        withSuffixJsonl_backup p d2 hname h2 h2d]
  · show ".jsonl".data <:+ (withSuffixJsonl (backupName p d1)).data
    rw [withSuffixJsonl_backup p d1 hname h1 h1d]
    exact ⟨(splitLastSlash p.data).1 ++ (splitLastSlash p.data).2, by simp⟩

/-- C5 counterexample at the concrete rotation inputs: the first and
second backup names of `data/logs/log.jsonl` are renamed by the namer to
the same file `data/logs/log.jsonl.jsonl`, so the two distinct backups
collide (the numeric discriminator is destroyed). -/
theorem c5_counterexample :
    rotNamer "data/logs/log.jsonl.1" = "data/logs/log.jsonl.jsonl" ∧
    rotNamer "data/logs/log.jsonl.2" = "data/logs/log.jsonl.jsonl" := by
  constructor <;> rfl

theorem c5_namer_collapses_witness :
    rotNamer (backupName "data/logs/log.jsonl" ['1']) =
      rotNamer (backupName "data/logs/log.jsonl" ['2']) ∧
    ".jsonl".data <:+ (rotNamer (backupName "data/logs/log.jsonl" ['1'])).data :=
  c5_namer_collapses "data/logs/log.jsonl" ['1'] ['2']
    (by decide) (by decide) (by decide) (by decide) (by decide)

/-- C2 (amended): `JSONLogFormatter.format` never raises for any record
whose message rendering succeeds — in particular a formatter constructed
with an invalid timezone (construction already resolved it), a record
with no exception info, and a record with non-JSON-serializable extras
(coerced to text by `default=str`) all format to a string; but when
`record.getMessage()` raises (percent-template/argument mismatch, line
157), `format` propagates that exception, so it is not total over every
record. -/
theorem c2_format_total_modulo_message (env : TzEnv) (c : Option Cfg)
    (f : JSONLogFormatter) (warns : List String)
    (hmk : mkJSONLogFormatter env c = Except.ok (f, warns))
    (r : LogRecord) (m : String) (hm : r.getMessageR = Except.ok m) :
    isOkStr (formatRecord f r) = true := by
  unfold formatRecord formatData
  rw [hm]
  rfl

/-- C2 counterexample: the record built by `logger.info("%d", "x")` has a
message template that does not match its arguments; `record.getMessage()`
raises, and `JSONLogFormatter.format` propagates the exception instead of
returning a string. -/
theorem c2_counterexample :
    formatRecord fmtEmpty recBadMsg = Except.error () := rfl

theorem c2_format_total_modulo_message_witness :
    isOkStr (formatRecord fmtEmpty recPlain) = true :=
  c2_format_total_modulo_message envW (Option.some []) fmtEmpty []
    rfl recPlain "hello" rfl

/-- C8: when the configured timezone identifier does not resolve (and
`included_keys` is absent or a dictionary, so `__init__` reaches the
timezone block), construction does not fail: it prints the invalid-
timezone warning, falls back to the host's local timezone — UTC when
that is falsy — and `formatTime` then renders `record.created` in the
resolved fallback timezone through the `datefmt or self.datefmt or
"%Y-%m-%dT%H:%M:%S%z"` chain. -/
theorem c8_invalid_tz_fallback (env : TzEnv) (cfg : Cfg) (s : String)
    (htz : cfgGetD cfg "timezone" (PyValue.str "America/Sao_Paulo") =
      PyValue.str s)
    (hbad : env.isValid s = false)
    (km : List (String × PyValue))
    (hkm : cfgGetD cfg "included_keys" (PyValue.dict []) = PyValue.dict km) :
    (∃ fw, mkJSONLogFormatter env (Option.some cfg) = Except.ok fw) ∧
    ∀ (f : JSONLogFormatter) (warns : List String),
      mkJSONLogFormatter env (Option.some cfg) = Except.ok (f, warns) →
        warns = [tzWarningLine] ∧
        f.tz = env.localTz.getD Tz.utc ∧
        ∀ (r : LogRecord) (dfmt : Option String),
          formatTime f r dfmt =
            strftime (pyOrStr dfmt (pyOrStr f.datefmt "%Y-%m-%dT%H:%M:%S%z"))
              { epoch := r.created, tz := env.localTz.getD Tz.utc } := by
  have hred : mkJSONLogFormatter env (Option.some cfg) =
      Except.ok
        ({ cfg := cfg,
           includeKeys := (km.filter (fun kv => pyTruthy kv.2)).map (fun kv => kv.1),
           datefmt :=
             match cfgGet cfg "date_format" with
             | PyValue.str s => Option.some s
             | _ => Option.none,
           tz := env.localTz.getD Tz.utc }, [tzWarningLine]) := by
    simp only [mkJSONLogFormatter, Option.getD, hkm, htz, hbad]
    simp
  refine ⟨⟨_, hred⟩, ?_⟩
  intro f warns h
  rw [hred] at h
  obtain ⟨hf, hw⟩ := Prod.mk.injEq .. ▸ Except.ok.inj h
  refine ⟨hw.symm, ?_, ?_⟩
  · rw [← hf]
  · intro r dfmt
    unfold formatTime
    rw [← hf]

/-- The configuration used in `test_json_formatter_invalid_timezone`:
a timezone identifier no host resolves. -/
def cfgBadTz : Cfg :=
  [("timezone", PyValue.str "No/Such_Zone"),
   ("date_format", PyValue.str "%Y-%m-%dT%H:%M:%S%z")]

theorem c8_invalid_tz_fallback_witness :
    (fmtOf envBad (Option.some cfgBadTz)).tz = Tz.utc ∧
    formatTime (fmtOf envBad (Option.some cfgBadTz)) recPlain Option.none =
      strftime "%Y-%m-%dT%H:%M:%S%z" { epoch := 1700000000, tz := Tz.utc } :=
  have h := (c8_invalid_tz_fallback envBad cfgBadTz "No/Such_Zone" rfl rfl
    [] rfl).2 (fmtOf envBad (Option.some cfgBadTz)) [tzWarningLine] rfl
  ⟨h.2.1, h.2.2 recPlain Option.none⟩

/-- C10: `format` falls back to `include_extras = True` when the key is
absent (line 168), while the default configuration document materialized
by `create_default_config` sets `include_extras` to `False`; hence a
formatter built from the empty configuration merges the caller-supplied
extra `my_extra` into the output, while a formatter built from the
default document omits it on the very same record. -/
theorem c10_include_extras_divergence :
    cfgGetD [] "include_extras" (PyValue.bool true) = PyValue.bool true ∧
    pyGet "include_extras" defaultConfig = Option.some (PyValue.bool false) ∧
    "my_extra" ∈ formatKeys fmtEmpty recExtra ∧
    "my_extra" ∉ formatKeys fmtDefault recExtra := by
  refine ⟨rfl, rfl, ?_, ?_⟩
  · decide
  · decide

/-- Truthiness of `record.stack_info` (`None` and the empty string are
falsy). -/
def stackTruthy (r : LogRecord) : Bool :=
  match r.stackInfo with
  | Option.some s => !(s = "")
  | Option.none => false

theorem not_mem_keysOf_dictSet {k a : String}
    {d : List (String × PyValue)} {v : PyValue}
    (h1 : k ≠ a) (h2 : k ∉ keysOf d) : k ∉ keysOf (dictSet d a v) := by
  intro hmem
  rcases mem_keysOf_dictSet.mp hmem with rfl | h'
  · exact h1 rfl
  · exact h2 h'

theorem mem_keysOf_fdBase {k : String} (f : JSONLogFormatter) (r : LogRecord)
    (h1 : k ∈ f.includeKeys) (h2 : k ∈ LOG_RECORD_KEYS) :
    k ∈ keysOf (fdBase f r) :=
  mem_keysOf_foldl_self (fun key => key ∈ LOG_RECORD_KEYS)
    (fun key => key) (fun key => getattrRecord r key) f.includeKeys h1 h2 []

theorem not_mem_keysOf_fdBase {k : String} (f : JSONLogFormatter)
    (r : LogRecord) (h : k ∉ f.includeKeys ∨ k ∉ LOG_RECORD_KEYS) :
    k ∉ keysOf (fdBase f r) := by
  refine not_mem_keysOf_foldl (fun key => key ∈ LOG_RECORD_KEYS)
    (fun key => key) (fun key => getattrRecord r key) f.includeKeys
    ?_ [] (by simp [keysOf])
  intro x hx hp hEq
  subst hEq
  rcases h with h' | h'
  · exact h' hx
  · exact h' hp

theorem mem_keysOf_fdStamped {k : String} (f : JSONLogFormatter)
    (r : LogRecord) (h : k ∈ keysOf (fdBase f r)) :
    k ∈ keysOf (fdStamped f r) :=
  mem_keysOf_dictSet.mpr (Or.inr (mem_keysOf_dictSet.mpr (Or.inr
    (mem_keysOf_dictSet.mpr (Or.inr h)))))

theorem not_mem_keysOf_fdStamped {k : String} (f : JSONLogFormatter)
    (r : LogRecord) (hb : k ∉ keysOf (fdBase f r))
    (h1 : k ≠ "app") (h2 : k ≠ "environment") (h3 : k ≠ "created") :
    k ∉ keysOf (fdStamped f r) :=
  not_mem_keysOf_dictSet h3 (not_mem_keysOf_dictSet h2
    (not_mem_keysOf_dictSet h1 hb))

theorem mem_keysOf_fdExc {k : String} (r : LogRecord)
    (d : List (String × PyValue)) (h : k ∈ keysOf d) :
    k ∈ keysOf (fdExc r d) := by
  unfold fdExc
  split
  · split
    · exact mem_keysOf_dictSet.mpr (Or.inr h)
    · exact h
  · exact h

theorem not_mem_keysOf_fdExc {k : String} (r : LogRecord)
    (d : List (String × PyValue)) (hk : k ≠ "exc_info")
    (h : k ∉ keysOf d) : k ∉ keysOf (fdExc r d) := by
  unfold fdExc
  split
  · split
    · exact not_mem_keysOf_dictSet hk h
    · exact h
  · exact h

theorem mem_keysOf_fdStack {k : String} (r : LogRecord)
    (d : List (String × PyValue)) (h : k ∈ keysOf d) :
    k ∈ keysOf (fdStack r d) := by
  unfold fdStack
  split
  · split
    · exact mem_keysOf_dictSet.mpr (Or.inr h)
    · exact h
  · exact h

theorem not_mem_keysOf_fdStack {k : String} (r : LogRecord)
    (d : List (String × PyValue))
    (hcond : k = "stack_info" → stackTruthy r = false)
    (h : k ∉ keysOf d) : k ∉ keysOf (fdStack r d) := by
  unfold fdStack
  split
  · rename_i s hs
    split
    · rename_i hc
      refine not_mem_keysOf_dictSet ?_ h
      intro hEq
      have hf := hcond hEq
      rw [stackTruthy, hs] at hf
      simp at hf
      exact hc hf
    · exact h
  · exact h

theorem mem_keysOf_fdExtras {k : String} (f : JSONLogFormatter)
    (r : LogRecord) (d : List (String × PyValue)) (h : k ∈ keysOf d) :
    k ∈ keysOf (fdExtras f r d) := by
  unfold fdExtras
  by_cases hc : pyTruthy (cfgGetD f.cfg "include_extras" (PyValue.bool true)) = true
  · rw [if_pos hc]
    exact mem_keysOf_foldl_of_mem (fun kv => kv.1 ∉ LOG_RECORD_KEYS)
      (fun kv => kv.1) (fun kv => kv.2) (varsOf r) d h
  · rw [if_neg hc]
    exact h

theorem not_mem_keysOf_fdExtras_std {k : String} (f : JSONLogFormatter)
    (r : LogRecord) (d : List (String × PyValue))
    (hstd : k ∈ LOG_RECORD_KEYS) (h : k ∉ keysOf d) :
    k ∉ keysOf (fdExtras f r d) := by
  unfold fdExtras
  by_cases hc : pyTruthy (cfgGetD f.cfg "include_extras" (PyValue.bool true)) = true
  · rw [if_pos hc]
    refine not_mem_keysOf_foldl (fun kv => kv.1 ∉ LOG_RECORD_KEYS)
      (fun kv => kv.1) (fun kv => kv.2) (varsOf r) ?_ d h
    intro kv hkv hp hEq
    have hEq' : k = kv.1 := hEq.symm
    exact hp (hEq' ▸ hstd)
  · rw [if_neg hc]
    exact h

theorem fdExtras_off {f : JSONLogFormatter} (r : LogRecord)
    (d : List (String × PyValue))
    (hext : pyTruthy (cfgGetD f.cfg "include_extras" (PyValue.bool true)) = false) :
    fdExtras f r d = d := by
  unfold fdExtras
  rw [hext]
  rfl

theorem pyGet_fdStack_ne {k : String} (hk : k ≠ "stack_info")
    (r : LogRecord) (d : List (String × PyValue)) :
    pyGet k (fdStack r d) = pyGet k d := by
  unfold fdStack
  split
  · split
    · exact pyGet_dictSet_ne hk d _
    · rfl
  · rfl

/-- C6 (amended): for every record and policy, each standard field whose
name is marked active in the policy's included-field map appears in the
output, and each standard field marked inactive (or absent) never
appears — except the unconditionally stamped `created` and `message`
fields (lines 156-157), and `stack_info` when the record carries a
truthy stack snapshot (line 164), which appear regardless of the
policy. -/
theorem c6_field_policy (env : TzEnv) (cfg : Cfg) (f : JSONLogFormatter)
    (warns : List String)
    (hmk : mkJSONLogFormatter env (Option.some cfg) = Except.ok (f, warns))
    (r : LogRecord) (m : String) (hm : r.getMessageR = Except.ok m)
    (k : String) (hk : k ∈ LOG_RECORD_KEYS) :
    (k ∈ f.includeKeys → k ∈ formatKeys f r) ∧
    (k ∉ f.includeKeys → k ≠ "created" → k ≠ "message" →
      (k = "stack_info" → stackTruthy r = false) →
      k ∉ formatKeys f r) := by
  have hfk : formatKeys f r =
      keysOf (fdExtras f r (fdStack r (fdExc r
        (dictSet (fdStamped f r) "message" (PyValue.str m))))) := by
    unfold formatKeys formatData
    rw [hm]
  constructor
  · intro hin
    rw [hfk]
    exact mem_keysOf_fdExtras f r _ (mem_keysOf_fdStack r _
      (mem_keysOf_fdExc r _ (mem_keysOf_dictSet.mpr (Or.inr
        (mem_keysOf_fdStamped f r (mem_keysOf_fdBase f r hin hk))))))
  · intro hnin hcr hmsg hstk
    rw [hfk]
    have happ : k ≠ "app" := by rintro rfl; revert hk; decide
    have henv : k ≠ "environment" := by rintro rfl; revert hk; decide
    have hexc : k ≠ "exc_info" := by rintro rfl; revert hk; decide
    exact not_mem_keysOf_fdExtras_std f r _ hk
      (not_mem_keysOf_fdStack r _ hstk
        (not_mem_keysOf_fdExc r _ hexc
          (not_mem_keysOf_dictSet hmsg
            (not_mem_keysOf_fdStamped f r
              (not_mem_keysOf_fdBase f r (Or.inl hnin)) happ henv hcr))))

/-- A policy that explicitly marks `created` inactive. -/
def cfgNoCreated : Cfg :=
  [("included_keys", PyValue.dict [("created", PyValue.bool false)])]

/-- The formatter built from `cfgNoCreated`. -/
def fmtNoCreated : JSONLogFormatter := fmtOf envW (Option.some cfgNoCreated)

/-- C6 counterexample: with `created` marked inactive in the policy map,
the formatted output still contains a `created` field, because line 156
stamps it unconditionally — an inactive standard field does appear. -/
theorem c6_counterexample :
    "created" ∉ fmtNoCreated.includeKeys ∧
    "created" ∈ formatKeys fmtNoCreated recPlain := by
  refine ⟨?_, ?_⟩
  · decide
  · decide

/-- A policy marking `levelname` active and `lineno` inactive. -/
def cfgPolicyW : Cfg :=
  [("included_keys", PyValue.dict
      [("levelname", PyValue.bool true), ("lineno", PyValue.bool false)])]

/-- The formatter built from `cfgPolicyW`. -/
def fmtPolicyW : JSONLogFormatter := fmtOf envW (Option.some cfgPolicyW)

theorem c6_field_policy_witness :
    "levelname" ∈ formatKeys fmtPolicyW recPlain ∧
    "lineno" ∉ formatKeys fmtPolicyW recPlain :=
  ⟨(c6_field_policy envW cfgPolicyW fmtPolicyW [] rfl recPlain "hello" rfl
      "levelname" (by decide)).1 (by decide),
   (c6_field_policy envW cfgPolicyW fmtPolicyW [] rfl recPlain "hello" rfl
      "lineno" (by decide)).2 (by decide) (by decide) (by decide) (by decide)⟩

/-- C9 (amended): when extras merging is disabled, a record carrying real
exception info yields the rendered traceback under `exc_info`, and both
the `(None, None, None)` slot (rendering to `"NoneType: None"`) and an
absent exception slot leave the `exc_info` field out entirely.  (When
extras merging is enabled — including by the `include_extras` fallback
default `True` — the extras loop re-merges the raw `exc_info` attribute,
so the field appears as `null` even without exception info, and
overwrites the rendered traceback with the stringified tuple otherwise;
the original unconditional claim is therefore false.) -/
theorem c9_exc_field (f : JSONLogFormatter) (r : LogRecord)
    (hext : pyTruthy (cfgGetD f.cfg "include_extras" (PyValue.bool true)) = false)
    (m : String) (hm : r.getMessageR = Except.ok m) :
    (∀ e, r.excInfo = Option.some e →
      pyStrip (formatException e) ≠ "NoneType: None" →
      formatLookup f r "exc_info" =
        Option.some (PyValue.str (formatException e))) ∧
    (r.excInfo = Option.none → "exc_info" ∉ formatKeys f r) ∧
    (∀ e, r.excInfo = Option.some e →
      pyStrip (formatException e) = "NoneType: None" →
      "exc_info" ∉ formatKeys f r) := by
  have hfd : formatData f r = Except.ok (fdStack r (fdExc r
      (dictSet (fdStamped f r) "message" (PyValue.str m)))) := by
    unfold formatData
    rw [hm]
    show Except.ok (fdExtras f r (fdStack r (fdExc r
      (dictSet (fdStamped f r) "message" (PyValue.str m))))) = _
    rw [fdExtras_off r _ hext]
  have hbase : "exc_info" ∉ keysOf
      (dictSet (fdStamped f r) "message" (PyValue.str m)) :=
    not_mem_keysOf_dictSet (by decide)
      (not_mem_keysOf_fdStamped f r
        (not_mem_keysOf_fdBase f r (Or.inr (by decide)))
        (by decide) (by decide) (by decide))
  refine ⟨?_, ?_, ?_⟩
  · intro e he hne
    have hexcred : fdExc r (dictSet (fdStamped f r) "message" (PyValue.str m)) =
        dictSet (dictSet (fdStamped f r) "message" (PyValue.str m))
          "exc_info" (PyValue.str (formatException e)) := by
      simp only [fdExc, he]
      rw [if_pos hne]
    unfold formatLookup
    rw [hfd]
    show pyGet "exc_info" (fdStack r (fdExc r _)) = _
    rw [hexcred, pyGet_fdStack_ne (by decide) r _, pyGet_dictSet_self]
  · intro he
    have hexcid : fdExc r (dictSet (fdStamped f r) "message" (PyValue.str m)) =
        dictSet (fdStamped f r) "message" (PyValue.str m) := by
      simp only [fdExc, he]
    unfold formatKeys
    rw [hfd]
    show "exc_info" ∉ keysOf (fdStack r (fdExc r _))
    rw [hexcid]
    exact not_mem_keysOf_fdStack r _ (fun h => absurd h (by decide)) hbase
  · intro e he hker
    have hexcid : fdExc r (dictSet (fdStamped f r) "message" (PyValue.str m)) =
        dictSet (fdStamped f r) "message" (PyValue.str m) := by
      simp only [fdExc, he]
      rw [if_neg (not_not_intro hker)]
    unfold formatKeys
    rw [hfd]
    show "exc_info" ∉ keysOf (fdStack r (fdExc r _))
    rw [hexcid]
    exact not_mem_keysOf_fdStack r _ (fun h => absurd h (by decide)) hbase

/-- C9 counterexample: on the empty configuration (so `include_extras`
falls back to `True`), a record that carries *no* exception info still
produces an `exc_info` field — bound to `null` — because the extras loop
merges the raw `exc_info = None` attribute (its name is not in
`LOG_RECORD_KEYS`): the field is not omitted. -/
theorem c9_counterexample :
    recPlain.excInfo = Option.none ∧
    formatLookup fmtEmpty recPlain "exc_info" = Option.some PyValue.none :=
  ⟨rfl, rfl⟩

/-- A configuration that disables extras merging. -/
def cfgNoExtras : Cfg := [("include_extras", PyValue.bool false)]

/-- The formatter built from `cfgNoExtras`. -/
def fmtNoExtras : JSONLogFormatter := fmtOf envW (Option.some cfgNoExtras)

/-- A rendered traceback as `formatException` produces for a real
exception. -/
def excBoom : ExcInfo :=
  ExcInfo.exc "Traceback (most recent call last):\n  ...\nValueError: boom"

/-- `recPlain` carrying real exception info. -/
def recExc : LogRecord := { recPlain with excInfo := Option.some excBoom }

theorem c9_exc_field_witness :
    formatLookup fmtNoExtras recExc "exc_info" =
      Option.some (PyValue.str (formatException excBoom)) ∧
    "exc_info" ∉ formatKeys fmtNoExtras recPlain :=
  ⟨(c9_exc_field fmtNoExtras recExc rfl "hello" rfl).1 excBoom rfl (by decide),
   (c9_exc_field fmtNoExtras recPlain rfl "hello" rfl).2.1 rfl⟩
